import Mathlib

/-!
Verification of the Render database rebuild scripts.

The repository holds three JavaScript variants of the same tool:
* `src/index.js` — interactive menu variant (`v0` definitions below);
* `src/unnamed/part_000` — module variant whose `rebuildDatabase` first
  validates configuration (`rebuild_mod` below), body identical to `v0`;
* `src/unnamed/part_001` — "fan-out" variant whose `fetchServices` unwraps
  the nested `service` objects and enriches them with per-service event
  details fetched in parallel (`v1`/`fan` definitions below).

JavaScript dynamic values are embedded as `JSVal`; HTTP interaction is
embedded as an oracle `Api : ApiCall → Except JSVal Resp` (an `Except.error`
models an axios rejection, e.g. a non-2xx status or transport failure).
Every accessor returns its result together with the list of HTTP calls it
issued, in issuance order.
-/

/-- A JavaScript value.  Numbers are embedded as `Int` (all numbers the
scripts handle — HTTP statuses, timestamps, lengths — are integral).
Objects are association lists built by the program or the API; keys are
unique as built, and lookup takes the first match. -/
inductive JSVal where
  | undef : JSVal
  | null : JSVal
  | bool : Bool → JSVal
  | num : Int → JSVal
  | str : String → JSVal
  | obj : List (String × JSVal) → JSVal
  | arr : List JSVal → JSVal
deriving Repr

/-- The `TypeError` thrown by JavaScript property access on
`undefined`/`null`; the scripts never inspect thrown values, so the
payload is just a tag. -/
def typeErr : JSVal := JSVal.str "TypeError"

/-- First-match lookup in an object's field list; a missing key reads as
`undefined`, as in JavaScript. -/
def lookupField (fs : List (String × JSVal)) (k : String) : JSVal :=
  match fs.find? (fun p => p.1 == k) with
  | some p => p.2
  | none => JSVal.undef

/-- JavaScript property access `v[k]` (also single-field object
destructuring `const { k } = v`): throws `TypeError` on `undefined` and
`null`, reads object fields, exposes `length` on arrays and strings, and
yields `undefined` on other primitives. -/
def jsGet : JSVal → String → Except JSVal JSVal
  | .undef, _ => .error typeErr
  | .null, _ => .error typeErr
  | .obj fs, k => .ok (lookupField fs k)
  | .arr xs, k => .ok (if k == "length" then JSVal.num xs.length else JSVal.undef)
  | .str s, k => .ok (if k == "length" then JSVal.num s.length else JSVal.undef)
  | .num _, _ => .ok JSVal.undef
  | .bool _, _ => .ok JSVal.undef

/-- JavaScript `v[0]`: throws on `undefined`/`null`; an out-of-range index
on an array reads as `undefined` (no throw). -/
def jsIndex0 : JSVal → Except JSVal JSVal
  | .undef => .error typeErr
  | .null => .error typeErr
  | .arr xs => .ok (xs.headD JSVal.undef)
  | .obj fs => .ok (lookupField fs "0")
  | .str s =>
    .ok (match s.toList with
      | [] => JSVal.undef
      | c :: _ => JSVal.str (String.mk [c]))
  | .num _ => .ok JSVal.undef
  | .bool _ => .ok JSVal.undef

/-- JavaScript strict equality `===` as used by the scripts: the operands
compared are always primitives (strings, statuses).  For two
objects/arrays the result is reference equality; the scripts never compare
two objects, so `false` is returned there. -/
def jsStrictEq : JSVal → JSVal → Bool
  | .undef, .undef => true
  | .null, .null => true
  | .bool a, .bool b => a == b
  | .num a, .num b => a == b
  | .str a, .str b => a == b
  | _, _ => false

/-- JavaScript truthiness (the scripts never produce `NaN`). -/
def jsTruthy : JSVal → Bool
  | .undef => false
  | .null => false
  | .bool b => b
  | .num n => n != 0
  | .str s => s != ""
  | .obj _ => true
  | .arr _ => true

/-- The `Object.values`: throws on `undefined`/`null`, yields field values of
objects, elements of arrays, characters of strings, `[]` on other
primitives. -/
def jsValues : JSVal → Except JSVal (List JSVal)
  | .undef => .error typeErr
  | .null => .error typeErr
  | .obj fs => .ok (fs.map (fun p => p.2))
  | .arr xs => .ok xs
  | .str s => .ok (s.toList.map (fun c => JSVal.str (String.mk [c])))
  | .num _ => .ok []
  | .bool _ => .ok []

/-- The scripts' `isEmpty` helper: `Object.values(obj).length === 0`. -/
def isEmptyM (v : JSVal) : Except JSVal Bool := do
  let vs ← jsValues v
  pure (vs.length == 0)

/-- Fields contributed by object spread `{...d}`: object fields, indexed
entries for arrays and strings, nothing for other values (spreading
`undefined`/`null` into an object literal contributes nothing). -/
def spreadFields : JSVal → List (String × JSVal)
  | .obj fs => fs
  | .arr xs => xs.enum.map (fun p => (toString p.1, p.2))
  | .str s => s.toList.enum.map (fun p => (toString p.1, JSVal.str (String.mk [p.2])))
  | _ => []

/-- The object literal `{...d, k: x}`: the trailing entry overrides any
`k` from the spread, so lookup (first match) sees `x` for `k` and the
spread fields otherwise. -/
def jsSpreadWith (d : JSVal) (k : String) (x : JSVal) : JSVal :=
  JSVal.obj ((spreadFields d).filter (fun p => p.1 ≠ k) ++ [(k, x)])

/-- Total field read on a value already known not to be
`undefined`/`null` (the non-throwing half of `jsGet`). -/
def jsGetD : JSVal → String → JSVal
  | .obj fs, k => lookupField fs k
  | .arr xs, k => if k == "length" then JSVal.num xs.length else JSVal.undef
  | .str s, k => if k == "length" then JSVal.num s.length else JSVal.undef
  | _, _ => JSVal.undef

/-- JavaScript object destructuring of four fields,
`const { k1, k2, k3, k4 } = v`: throws `TypeError` on `undefined`/`null`,
otherwise reads each field (missing fields read as `undefined`). -/
def jsDestr4 (v : JSVal) (k1 k2 k3 k4 : String) :
    Except JSVal (JSVal × JSVal × JSVal × JSVal) :=
  match v with
  | .undef => .error typeErr
  | .null => .error typeErr
  | w => .ok (jsGetD w k1, jsGetD w k2, jsGetD w k3, jsGetD w k4)

/-- Property assignment `v[k] = x` building a new object; only ever
applied by the scripts to object literals they just built. -/
def jsSetField (v : JSVal) (k : String) (x : JSVal) : JSVal :=
  match v with
  | .obj fs => .obj (fs.filter (fun p => p.1 ≠ k) ++ [(k, x)])
  | w => w

mutual

/-- JavaScript template-literal stringification, as used to splice ids and
keys into request URLs: `undefined` prints as `"undefined"`, `null` as
`"null"`, arrays join their elements with commas. -/
def jsToStr : JSVal → String
  | .undef => "undefined"
  | .null => "null"
  | .bool b => cond b "true" "false"
  | .num n => toString n
  | .str s => s
  | .obj _ => "[object Object]"
  | .arr xs => jsJoin xs

/-- The `Array.prototype.join(",")`: `undefined` and `null` elements print as
empty strings inside a join. -/
def jsJoin : List JSVal → String
  | [] => ""
  | x :: xs =>
    let hd :=
      match x with
      | .undef => ""
      | .null => ""
      | v => jsToStr v
    match xs with
    | [] => hd
    | _ :: _ => hd ++ "," ++ jsJoin xs

end

/-- An axios response, restricted to the two fields the scripts read. -/
structure Resp where
  status : Int
  data : JSVal
deriving Repr

/-- One HTTP request as issued by the scripts: method, full URL, and JSON
body (`JSVal.undef` for bodiless GET/DELETE requests). -/
structure ApiCall where
  method : String
  url : String
  body : JSVal
deriving Repr

/-- The external REST API, as an oracle from requests to outcomes.  An
`Except.error` models an axios rejection (non-2xx status or transport
failure); `Except.ok` carries the response object. -/
abbrev Api := ApiCall → Except JSVal Resp

/-- A bodiless GET request. -/
def getCall (u : String) : ApiCall := ⟨"GET", u, JSVal.undef⟩

/-- The hardcoded `baseUrl` constant shared by all three variants. -/
def realBase : String := "https://api.render.com/v1"

/-! ## Resource accessors

Each accessor mirrors one function of the source.  The result is paired
with the calls issued; accessors that issue a single request always report
exactly that request, whether it succeeds or rejects (the `catch` blocks
log and re-throw, which preserves the error). -/

/-- URL of `GET ${baseUrl}/owners?limit=1`. -/
def ownersUrl (burl : String) : String := burl ++ "/owners?limit=1"

/-- URL of `GET ${baseUrl}/services`. -/
def servicesUrl (burl : String) : String := burl ++ "/services"

/-- URL of `GET ${baseUrl}/postgres` (also the POST target for creation). -/
def postgresUrl (burl : String) : String := burl ++ "/postgres"

/-- Result post-processing of `fetchOwner`: on status 200 destructure
`const { owner } = response.data[0]` and return it; on any other non-thrown
status fall through the `if` and return `undefined`. -/
def ownerResult (r : Except JSVal Resp) : Except JSVal JSVal :=
  match r with
  | .error e => .error e
  | .ok resp =>
    if resp.status = 200 then
      match jsIndex0 resp.data with
      | .error e => .error e
      | .ok first => jsGet first "owner"
    else
      .ok JSVal.undef

/-- The `fetchOwner` (identical in all three variants). -/
def fetchOwner (burl : String) (api : Api) : Except JSVal JSVal × List ApiCall :=
  (ownerResult (api (getCall (ownersUrl burl))), [getCall (ownersUrl burl)])

/-- The filter callback `item => item.service.type === "web_service"`. -/
def webPred (item : JSVal) : Except JSVal Bool := do
  let s ← jsGet item "service"
  let t ← jsGet s "type"
  pure (jsStrictEq t (JSVal.str "web_service"))

/-- The `Array.prototype.filter` with an effectful callback: the first thrown
error aborts the whole filter, as a throw inside a JS callback does. -/
def jsFilterM (p : JSVal → Except JSVal Bool) : List JSVal → Except JSVal (List JSVal)
  | [] => .ok []
  | x :: xs => do
    let b ← p x
    let rest ← jsFilterM p xs
    pure (if b then x :: rest else rest)

/-- The `Array.prototype.map` with an effectful callback. -/
def jsMapM (f : JSVal → Except JSVal JSVal) : List JSVal → Except JSVal (List JSVal)
  | [] => .ok []
  | x :: xs => do
    let y ← f x
    let ys ← jsMapM f xs
    pure (y :: ys)

/-- The `Array.prototype.reduce` with an effectful callback. -/
def jsFoldM (f : JSVal → JSVal → Except JSVal JSVal) (init : JSVal) :
    List JSVal → Except JSVal JSVal
  | [] => .ok init
  | x :: xs => do
    let acc ← f init x
    jsFoldM f acc xs

/-- Result post-processing of the interactive/module `fetchServices`:
filter the raw response items by `item.service.type === "web_service"`,
then drop `null` entries (`service !== null`).  The JS value is an array;
its elements are returned.  Calling `.filter` on a non-array response
body throws. -/
def servicesRawResult (r : Except JSVal Resp) : Except JSVal (List JSVal) :=
  match r with
  | .error e => .error e
  | .ok resp =>
    match resp.data with
    | .arr items =>
      match jsFilterM webPred items with
      | .error e => .error e
      | .ok services => .ok (services.filter (fun s => !(jsStrictEq s JSVal.null)))
    | _ => .error typeErr

/-- The `fetchServices` of `src/index.js` and `src/unnamed/part_000`: the kept
entries are the raw list items, with the service object still nested under
their `service` field. -/
def fetchServices_raw (burl : String) (api : Api) :
    Except JSVal (List JSVal) × List ApiCall :=
  (servicesRawResult (api (getCall (servicesUrl burl))), [getCall (servicesUrl burl)])

/-- The reduce callback of `fetchEventDetails`: on a `deploy_ended` event
replace the accumulator by `{...event.details, lastDeployed: event.timestamp}`,
otherwise keep it. -/
def deployFoldStep (acc item : JSVal) : Except JSVal JSVal := do
  let event ← jsGet item "event"
  let ty ← jsGet event "type"
  cond (jsStrictEq ty (JSVal.str "deploy_ended"))
    (do
      let details ← jsGet event "details"
      let ts ← jsGet event "timestamp"
      pure (jsSpreadWith details "lastDeployed" ts))
    (pure acc)

/-- URL of `GET ${baseUrl}/services/${serviceId}/events`. -/
def eventsUrl (burl : String) (sid : JSVal) : String :=
  burl ++ "/services/" ++ jsToStr sid ++ "/events"

/-- Result post-processing of `fetchEventDetails`: reduce the events
response with `deployFoldStep`, starting from `{}`. -/
def eventDetailsResult (r : Except JSVal Resp) : Except JSVal JSVal :=
  match r with
  | .error e => .error e
  | .ok resp =>
    match resp.data with
    | .arr items => jsFoldM deployFoldStep (JSVal.obj []) items
    | _ => .error typeErr

/-- The `fetchEventDetails` of `src/unnamed/part_001`. -/
def fetchEventDetails (burl : String) (api : Api) (sid : JSVal) :
    Except JSVal JSVal × List ApiCall :=
  (eventDetailsResult (api (getCall (eventsUrl burl sid))), [getCall (eventsUrl burl sid)])

/-- One branch of the fan-out `Promise.all`: destructure
`{ name, id, type }` from the service (throwing on `undefined`/`null`),
fetch its event details, and map a failed detail fetch to `null`. -/
def fanOutOne (api : Api) (s : JSVal) : Except JSVal JSVal × List ApiCall :=
  match jsGet s "name", jsGet s "id", jsGet s "type" with
  | .ok nm, .ok sid, .ok ty =>
    match fetchEventDetails realBase api sid with
    | (.error _, t) => (.ok JSVal.null, t)
    | (.ok details, t) =>
      (.ok (JSVal.obj [("name", nm), ("id", sid), ("type", ty), ("details", details)]), t)
  | .error e, _, _ => (.error e, [])
  | _, .error e, _ => (.error e, [])
  | _, _, .error e => (.error e, [])

/-- The `Promise.all` fan-out: every branch issues its request regardless
of its siblings (the `map` callbacks all start synchronously), and the
joined promise carries either all results in order or the first rejection. -/
def fanOut (api : Api) : List JSVal → Except JSVal (List JSVal) × List ApiCall
  | [] => (.ok [], [])
  | s :: rest =>
    match (fanOutOne api s).1, (fanOut api rest).1 with
    | .ok v, .ok vs => (.ok (v :: vs), (fanOutOne api s).2 ++ (fanOut api rest).2)
    | .error e, _ => (.error e, (fanOutOne api s).2 ++ (fanOut api rest).2)
    | _, .error e => (.error e, (fanOutOne api s).2 ++ (fanOut api rest).2)

/-- The `fetchServices` of `src/unnamed/part_001`: filter to web services,
unwrap the nested `service` objects, enrich each in the fan-out, and drop
the `null` entries left by failed detail fetches. -/
def fetchServices_fan (api : Api) : Except JSVal (List JSVal) × List ApiCall :=
  let call := getCall (servicesUrl realBase)
  match api call with
  | .error e => (.error e, [call])
  | .ok resp =>
    match resp.data with
    | .arr items =>
      match jsFilterM webPred items with
      | .error e => (.error e, [call])
      | .ok kept =>
        match jsMapM (fun it => jsGet it "service") kept with
        | .error e => (.error e, [call])
        | .ok services =>
          let fanned := fanOut api services
          match fanned.1 with
          | .error e => (.error e, call :: fanned.2)
          | .ok detailed =>
            (.ok (detailed.filter (fun s => !(jsStrictEq s JSVal.null))), call :: fanned.2)
    | _ => (.error typeErr, [call])

/-- The `fetchDatabase` (identical in all variants):
`response.data.length ? response.data[0].postgres : {}`. -/
def databaseResult (r : Except JSVal Resp) : Except JSVal JSVal :=
  match r with
  | .error e => .error e
  | .ok resp =>
    match jsGet resp.data "length" with
    | .error e => .error e
    | .ok len =>
      if jsTruthy len then
        match jsIndex0 resp.data with
        | .error e => .error e
        | .ok first => jsGet first "postgres"
      else
        .ok (JSVal.obj [])

/-- The `fetchDatabase`. -/
def fetchDatabase (burl : String) (api : Api) : Except JSVal JSVal × List ApiCall :=
  (databaseResult (api (getCall (postgresUrl burl))), [getCall (postgresUrl burl)])

/-- URL of the connection-info lookup for a database id. -/
def connInfoUrl (burl : String) (did : JSVal) : String :=
  burl ++ "/postgres/" ++ jsToStr did ++ "/connection-info"

/-- The `fetchConnectionInfo` (named `fetchDatabaseDetails` in the fan-out
variant; the code is identical): returns `response.data`. -/
def fetchConnectionInfo (burl : String) (api : Api) (did : JSVal) :
    Except JSVal JSVal × List ApiCall :=
  ((api (getCall (connInfoUrl burl did))).map Resp.data, [getCall (connInfoUrl burl did)])

/-- The POST request issued by `createDatabase`. -/
def createCall (burl : String) (dbName ownerId : JSVal) : ApiCall :=
  ⟨"POST", postgresUrl burl,
    JSVal.obj [("enableHighAvailability", JSVal.bool false), ("plan", JSVal.str "free"),
      ("version", JSVal.str "16"), ("name", dbName), ("ownerId", ownerId)]⟩

/-- The `createDatabase`: POST the fixed body and return `response.data`.
The interactive/module variants pass the configured `databaseName`; the
fan-out variant passes the hardcoded string `"my-db"`. -/
def createDatabase (burl : String) (api : Api) (dbName ownerId : JSVal) :
    Except JSVal JSVal × List ApiCall :=
  ((api (createCall burl dbName ownerId)).map Resp.data, [createCall burl dbName ownerId])

/-- The DELETE request issued by `deleteDatabase`. -/
def deleteCall (burl : String) (did : JSVal) : ApiCall :=
  ⟨"DELETE", burl ++ "/postgres/" ++ jsToStr did, JSVal.undef⟩

/-- The `deleteDatabase`: returns the whole response object (the caller
inspects its `status`). -/
def deleteDatabase (burl : String) (api : Api) (did : JSVal) :
    Except JSVal Resp × List ApiCall :=
  (api (deleteCall burl did), [deleteCall burl did])

/-- The PUT request issued by `updateEnvVariable`; ids and keys are
spliced into the URL with template-literal stringification. -/
def putCall (burl : String) (sid ek v : JSVal) : ApiCall :=
  ⟨"PUT", burl ++ "/services/" ++ jsToStr sid ++ "/env-vars/" ++ jsToStr ek,
    JSVal.obj [("value", v)]⟩

/-- The `updateEnvVariable`: PUT `{value: envValue}` and return `response.data`. -/
def updateEnvVariable (burl : String) (api : Api) (sid ek v : JSVal) :
    Except JSVal JSVal × List ApiCall :=
  ((api (putCall burl sid ek v)).map Resp.data, [putCall burl sid ek v])

/-- The POST request issued by `deployService`. -/
def deployCall (burl : String) (sid : JSVal) : ApiCall :=
  ⟨"POST", burl ++ "/services/" ++ jsToStr sid ++ "/deploys",
    JSVal.obj [("clearCache", JSVal.str "do_not_clear")]⟩

/-- The `deployService`: POST the deploy request and return `response.data`. -/
def deployService (burl : String) (api : Api) (sid : JSVal) :
    Except JSVal JSVal × List ApiCall :=
  ((api (deployCall burl sid)).map Resp.data, [deployCall burl sid])

/-! ## Orchestrators -/

/-- How a `rebuildDatabase` run ends: normal completion (`done!`), the
early return after a delete not confirmed by 204, a thrown error swallowed
by the top-level catch, or (for the validating entry points) the abort
before any work when configuration is missing. -/
inductive Outcome where
  | done : Outcome
  | deleteFailed : Outcome
  | errored : JSVal → Outcome
  | configMissing : Outcome
deriving Repr

/-- Module-level configuration of `src/index.js` / `src/unnamed/part_000`:
the four values `validateVariables` checks.  `databaseName`, `databaseKey`
and `key` are arbitrary JS values (`null` as shipped, a string once filled
in, `undefined` for an unset `API_KEY`); `baseUrl` is the string spliced
into every URL. -/
structure Config where
  databaseName : JSVal
  databaseKey : JSVal
  baseUrl : String
  key : JSVal

/-- The rebuild-and-repoint loop shared by all variants:
`for (const service of services) { await updateEnvVariable(service.id, envKey, newDb.internalDatabaseUrl); await deployService(service.id); }`.
The interactive/module variants pass the configured `databaseKey` as
`envKey`; the fan-out variant passes `"DATABASE_URL"`. -/
def repointLoop (burl : String) (api : Api) (envKey newDb : JSVal) :
    List JSVal → Except JSVal Unit × List ApiCall
  | [] => (.ok (), [])
  | s :: rest =>
    match jsGet s "id" with
    | .error e => (.error e, [])
    | .ok sid =>
      match jsGet newDb "internalDatabaseUrl" with
      | .error e => (.error e, [])
      | .ok url =>
        match (updateEnvVariable burl api sid envKey url).1 with
        | .error e => (.error e, (updateEnvVariable burl api sid envKey url).2)
        | .ok _ =>
          let tp := (updateEnvVariable burl api sid envKey url).2
          match (deployService burl api sid).1 with
          | .error e => (.error e, tp ++ (deployService burl api sid).2)
          | .ok _ =>
            let td := (deployService burl api sid).2
            let more := repointLoop burl api envKey newDb rest
            (more.1, tp ++ td ++ more.2)

/-- The creation half of `rebuildDatabase` (shared shape): create the
database under `owner.id`, destructure `{name, status, id, createdAt}`,
fetch the connection info of the new id, record it on the `newDb` object,
then run the repoint loop. -/
def rebuildCreate (burl : String) (api : Api) (dbName envKey : JSVal)
    (t : List ApiCall) (owner : JSVal) (services : List JSVal) :
    Outcome × List ApiCall :=
  match jsGet owner "id" with
  | .error e => (.errored e, t)
  | .ok oid =>
    match (createDatabase burl api dbName oid).1 with
    | .error e => (.errored e, t ++ (createDatabase burl api dbName oid).2)
    | .ok dbData =>
      let t1 := t ++ (createDatabase burl api dbName oid).2
      match jsDestr4 dbData "name" "status" "id" "createdAt" with
      | .error e => (.errored e, t1)
      | .ok (nm, st, did, cr) =>
        let newDb0 := JSVal.obj [("name", nm), ("status", st), ("id", did), ("createdAt", cr)]
        match (fetchConnectionInfo burl api did).1 with
        | .error e => (.errored e, t1 ++ (fetchConnectionInfo burl api did).2)
        | .ok connData =>
          let t2 := t1 ++ (fetchConnectionInfo burl api did).2
          match jsGet connData "internalConnectionString" with
          | .error e => (.errored e, t2)
          | .ok ics =>
            let newDb := jsSetField newDb0 "internalDatabaseUrl" ics
            let looped := repointLoop burl api envKey newDb services
            match looped.1 with
            | .error e => (.errored e, t2 ++ looped.2)
            | .ok _ => (.done, t2 ++ looped.2)

/-- The guard-and-continue half of `rebuildDatabase` (shared shape): if the
fetched database object is non-empty, delete it and require status 204;
then continue with creation. -/
def rebuildGuard (burl : String) (api : Api) (dbName envKey : JSVal)
    (t : List ApiCall) (owner : JSVal) (services : List JSVal) (database : JSVal) :
    Outcome × List ApiCall :=
  match isEmptyM database with
  | .error e => (.errored e, t)
  | .ok empt =>
    if empt then
      rebuildCreate burl api dbName envKey t owner services
    else
      match jsGet database "id" with
      | .error e => (.errored e, t)
      | .ok did =>
        match (deleteDatabase burl api did).1 with
        | .error e => (.errored e, t ++ (deleteDatabase burl api did).2)
        | .ok resp =>
          let t1 := t ++ (deleteDatabase burl api did).2
          if resp.status = 204 then
            rebuildCreate burl api dbName envKey t1 owner services
          else
            (.deleteFailed, t1)

/-- The `rebuildDatabase` of `src/index.js` (the module variant's body is
identical): sequential owner/services/database fetches, the delete guard,
then creation and the repoint loop; any thrown error is swallowed by the
top-level catch. -/
def rebuild_v0 (cfg : Config) (api : Api) : Outcome × List ApiCall :=
  match (fetchOwner cfg.baseUrl api).1 with
  | .error e => (.errored e, (fetchOwner cfg.baseUrl api).2)
  | .ok owner =>
    let t1 := (fetchOwner cfg.baseUrl api).2
    match (fetchServices_raw cfg.baseUrl api).1 with
    | .error e => (.errored e, t1 ++ (fetchServices_raw cfg.baseUrl api).2)
    | .ok services =>
      let t2 := t1 ++ (fetchServices_raw cfg.baseUrl api).2
      match (fetchDatabase cfg.baseUrl api).1 with
      | .error e => (.errored e, t2 ++ (fetchDatabase cfg.baseUrl api).2)
      | .ok database =>
        rebuildGuard cfg.baseUrl api cfg.databaseName cfg.databaseKey
          (t2 ++ (fetchDatabase cfg.baseUrl api).2) owner services database

/-- The `rebuildDatabase` of `src/unnamed/part_001`: same skeleton, but the
fan-out `fetchServices`, the hardcoded database name `"my-db"` and the
hardcoded env key `"DATABASE_URL"`. -/
def rebuild_v1 (api : Api) : Outcome × List ApiCall :=
  match (fetchOwner realBase api).1 with
  | .error e => (.errored e, (fetchOwner realBase api).2)
  | .ok owner =>
    let t1 := (fetchOwner realBase api).2
    match (fetchServices_fan api).1 with
    | .error e => (.errored e, t1 ++ (fetchServices_fan api).2)
    | .ok services =>
      let t2 := t1 ++ (fetchServices_fan api).2
      match (fetchDatabase realBase api).1 with
      | .error e => (.errored e, t2 ++ (fetchDatabase realBase api).2)
      | .ok database =>
        rebuildGuard realBase api (JSVal.str "my-db") (JSVal.str "DATABASE_URL")
          (t2 ++ (fetchDatabase realBase api).2) owner services database

/-- The names collected as missing by the configuration check (a value is
"missing" when falsy, exactly the four `if (!x) missing.push(...)` tests). -/
def validateMissing (cfg : Config) : List String :=
  (if jsTruthy cfg.databaseName then [] else ["databaseName"]) ++
  (if jsTruthy cfg.databaseKey then [] else ["databaseKey"]) ++
  (if cfg.baseUrl != "" then [] else ["baseUrl"]) ++
  (if jsTruthy cfg.key then [] else ["key"])

/-- The `validateVariables` of `src/unnamed/part_000` (the body of `runScript`
in `src/index.js` is the same check): proceed only when nothing is missing. -/
def validateVariables (cfg : Config) : Bool :=
  (validateMissing cfg).length == 0

/-- The `runScript` of `src/index.js`: validate the four configuration values,
abort with a message (and no HTTP calls) if any is missing, otherwise run
`rebuildDatabase`. -/
def runScript (cfg : Config) (api : Api) : Outcome × List ApiCall :=
  if validateVariables cfg then rebuild_v0 cfg api else (.configMissing, [])

/-- The `rebuildDatabase` of `src/unnamed/part_000`: `validateVariables` gate
first, then the same body as `rebuild_v0`. -/
def rebuild_mod (cfg : Config) (api : Api) : Outcome × List ApiCall :=
  if validateVariables cfg then rebuild_v0 cfg api else (.configMissing, [])

/-! ## Concrete scenarios -/

/-- Config with all four values set (the state after a user fills in the
two `null` constants and exports an API key). -/
def cfgW : Config :=
  ⟨JSVal.str "my-db", JSVal.str "DATABASE_URL", realBase, JSVal.str "k1"⟩

/-- Scenario API for the end-to-end happy path: owner `o1`, one web
service `s1` (with an empty event history), no existing database; creation
yields id `db1` whose connection string is `conn1`.  It also accepts the
requests the interactive variant addresses to service id `undefined`. -/
def apiFan : Api := fun c =>
  if c.method = "GET" ∧ c.url = ownersUrl realBase then
    .ok ⟨200, JSVal.arr [JSVal.obj [("owner", JSVal.obj [("id", JSVal.str "o1")])]]⟩
  else if c.method = "GET" ∧ c.url = servicesUrl realBase then
    .ok ⟨200, JSVal.arr [JSVal.obj
      [("service", JSVal.obj [("id", JSVal.str "s1"), ("type", JSVal.str "web_service")])]]⟩
  else if c.method = "GET" ∧ c.url = eventsUrl realBase (JSVal.str "s1") then
    .ok ⟨200, JSVal.arr []⟩
  else if c.method = "GET" ∧ c.url = postgresUrl realBase then
    .ok ⟨200, JSVal.arr []⟩
  else if c.method = "POST" ∧ c.url = postgresUrl realBase then
    .ok ⟨201, JSVal.obj [("name", JSVal.str "my-db"), ("status", JSVal.str "creating"),
      ("id", JSVal.str "db1"), ("createdAt", JSVal.str "t0")]⟩
  else if c.method = "GET" ∧ c.url = connInfoUrl realBase (JSVal.str "db1") then
    .ok ⟨200, JSVal.obj [("internalConnectionString", JSVal.str "conn1")]⟩
  else if c.method = "PUT" ∧
      c.url = realBase ++ "/services/s1/env-vars/DATABASE_URL" then
    .ok ⟨200, JSVal.obj []⟩
  else if c.method = "POST" ∧ c.url = realBase ++ "/services/s1/deploys" then
    .ok ⟨201, JSVal.obj []⟩
  else if c.method = "PUT" ∧
      c.url = realBase ++ "/services/undefined/env-vars/DATABASE_URL" then
    .ok ⟨200, JSVal.obj []⟩
  else if c.method = "POST" ∧ c.url = realBase ++ "/services/undefined/deploys" then
    .ok ⟨201, JSVal.obj []⟩
  else
    .error (JSVal.str "unexpected request")

/-- Scenario API with an existing database `db0` whose DELETE answers with
status 200 rather than 204. -/
def apiDel : Api := fun c =>
  if c.method = "GET" ∧ c.url = ownersUrl realBase then
    .ok ⟨200, JSVal.arr [JSVal.obj [("owner", JSVal.obj [("id", JSVal.str "o1")])]]⟩
  else if c.method = "GET" ∧ c.url = servicesUrl realBase then
    .ok ⟨200, JSVal.arr [JSVal.obj
      [("service", JSVal.obj [("id", JSVal.str "s1"), ("type", JSVal.str "web_service")])]]⟩
  else if c.method = "GET" ∧ c.url = eventsUrl realBase (JSVal.str "s1") then
    .ok ⟨200, JSVal.arr []⟩
  else if c.method = "GET" ∧ c.url = postgresUrl realBase then
    .ok ⟨200, JSVal.arr [JSVal.obj
      [("postgres", JSVal.obj [("id", JSVal.str "db0"), ("name", JSVal.str "olddb")])]]⟩
  else if c.method = "DELETE" ∧ c.url = realBase ++ "/postgres/db0" then
    .ok ⟨200, JSVal.undef⟩
  else
    .error (JSVal.str "unexpected request")

/-- Scenario API for the fan-out partial failure: two web services `a` and
`b`; the event lookup for `b` rejects. -/
def apiTwo : Api := fun c =>
  if c.method = "GET" ∧ c.url = servicesUrl realBase then
    .ok ⟨200, JSVal.arr
      [JSVal.obj [("service", JSVal.obj [("id", JSVal.str "a"), ("type", JSVal.str "web_service")])],
       JSVal.obj [("service", JSVal.obj [("id", JSVal.str "b"), ("type", JSVal.str "web_service")])]]⟩
  else if c.method = "GET" ∧ c.url = eventsUrl realBase (JSVal.str "a") then
    .ok ⟨200, JSVal.arr []⟩
  else if c.method = "GET" ∧ c.url = eventsUrl realBase (JSVal.str "b") then
    .error (JSVal.str "boom")
  else
    .error (JSVal.str "unexpected request")

/-- The events response of the reordering scenario: two `deploy_ended`
events, the earlier-indexed one carrying the greater timestamp. -/
def evItems : List JSVal :=
  [JSVal.obj [("event", JSVal.obj [("type", JSVal.str "deploy_ended"),
      ("details", JSVal.obj []), ("timestamp", JSVal.num 5)])],
   JSVal.obj [("event", JSVal.obj [("type", JSVal.str "deploy_ended"),
      ("details", JSVal.obj []), ("timestamp", JSVal.num 3)])]]

/-- Scenario API serving `evItems` as the event history of `s1`. -/
def apiEv : Api := fun c =>
  if c.method = "GET" ∧ c.url = eventsUrl realBase (JSVal.str "s1") then
    .ok ⟨200, JSVal.arr evItems⟩
  else
    .error (JSVal.str "unexpected request")

/-- Spec-side comparison definition, following the spec's words for claim
C8: the timestamps of the `deploy_ended` events of an events response, and
the greatest among them ("the deploy_ended event with the greatest
timestamp"). -/
def specDeployTimestamps (items : List JSVal) : List Int :=
  items.filterMap fun item =>
    match jsGet item "event" with
    | .error _ => none
    | .ok ev =>
      match jsGet ev "type", jsGet ev "timestamp" with
      | .ok (JSVal.str "deploy_ended"), .ok (JSVal.num n) => some n
      | _, _ => none

/-- Spec-side comparison definition: the greatest `deploy_ended` timestamp
of an events response, when one exists. -/
def specGreatestDeployTs (items : List JSVal) : Option Int :=
  (specDeployTimestamps items).max?

/-- Spec-side comparison definition, following the spec's words for the
end-to-end scenario of claim C3: owner fetch, service fetch, database
fetch, create with `ownerId "o1"`, connection-info fetch for the new id,
env-var PUT on `s1` with the new connection string, deploy POST on `s1` —
seven calls, with no per-service events fetch. -/
def claimedRebuildSeq : List ApiCall :=
  [getCall (ownersUrl realBase),
   getCall (servicesUrl realBase),
   getCall (postgresUrl realBase),
   createCall realBase (JSVal.str "my-db") (JSVal.str "o1"),
   getCall (connInfoUrl realBase (JSVal.str "db1")),
   putCall realBase (JSVal.str "s1") (JSVal.str "DATABASE_URL") (JSVal.str "conn1"),
   deployCall realBase (JSVal.str "s1")]

/-- The sequence the fan-out variant actually issues in that scenario:
the claimed seven calls plus the events fetch for `s1` right after the
service-list fetch. -/
def fanRebuildSeq : List ApiCall :=
  [getCall (ownersUrl realBase),
   getCall (servicesUrl realBase),
   getCall (eventsUrl realBase (JSVal.str "s1")),
   getCall (postgresUrl realBase),
   createCall realBase (JSVal.str "my-db") (JSVal.str "o1"),
   getCall (connInfoUrl realBase (JSVal.str "db1")),
   putCall realBase (JSVal.str "s1") (JSVal.str "DATABASE_URL") (JSVal.str "conn1"),
   deployCall realBase (JSVal.str "s1")]

/-- The sequence the interactive variant actually issues in that scenario:
seven calls in the claimed shape, but the env-var PUT and the deploy POST
address service id `undefined` (the raw list item has no `.id`). -/
def rawRebuildSeq : List ApiCall :=
  [getCall (ownersUrl realBase),
   getCall (servicesUrl realBase),
   getCall (postgresUrl realBase),
   createCall realBase (JSVal.str "my-db") (JSVal.str "o1"),
   getCall (connInfoUrl realBase (JSVal.str "db1")),
   putCall realBase JSVal.undef (JSVal.str "DATABASE_URL") (JSVal.str "conn1"),
   deployCall realBase JSVal.undef]

/-! ## Hypothesis predicates used by the theorems -/

/-- A service whose fan-out branch succeeds: destructuring works and its
event-detail fetch resolves. -/
def detailOk (api : Api) (s : JSVal) : Prop :=
  ∃ nm sid ty d, jsGet s "name" = .ok nm ∧ jsGet s "id" = .ok sid ∧
    jsGet s "type" = .ok ty ∧ (fetchEventDetails realBase api sid).1 = .ok d

/-- A service whose fan-out branch destructures fine but whose
event-detail fetch rejects. -/
def detailFails (api : Api) (s : JSVal) : Prop :=
  ∃ nm sid ty er, jsGet s "name" = .ok nm ∧ jsGet s "id" = .ok sid ∧
    jsGet s "type" = .ok ty ∧ (fetchEventDetails realBase api sid).1 = .error er

/-- An events-response item whose `item.event.type` reads without
throwing (so a reduce step over it cannot throw). -/
def eventReadable (item : JSVal) : Prop :=
  ∃ ev ty, jsGet item "event" = .ok ev ∧ jsGet ev "type" = .ok ty

/-- An events-response item that is readable but not a `deploy_ended`
event (a reduce step over it keeps the accumulator). -/
def eventSkipped (item : JSVal) : Prop :=
  ∃ ev ty, jsGet item "event" = .ok ev ∧ jsGet ev "type" = .ok ty ∧
    jsStrictEq ty (JSVal.str "deploy_ended") = false

/-- An events-response item that is a `deploy_ended` event with the given
details and timestamp. -/
def eventDeployEnded (item d ts : JSVal) : Prop :=
  ∃ ev, jsGet item "event" = .ok ev ∧
    jsGet ev "type" = .ok (JSVal.str "deploy_ended") ∧
    jsGet ev "details" = .ok d ∧ jsGet ev "timestamp" = .ok ts

/-! ## Helper lemmas -/

/-- The `Except` bind on a success reduces to the continuation. -/
theorem exceptBind_ok {α β ε : Type} (a : α) (f : α → Except ε β) :
    (Except.ok a >>= f) = f a := rfl

/-- The `Except` bind on a failure short-circuits. -/
theorem exceptBind_err {α β ε : Type} (e : ε) (f : α → Except ε β) :
    ((Except.error e : Except ε α) >>= f) = .error e := rfl

/-- Membership characterization of a successful effectful filter: kept
elements are exactly the input elements on which the callback returned
`true`. -/
theorem jsFilterM_mem (p : JSVal → Except JSVal Bool) :
    ∀ (l r : List JSVal), jsFilterM p l = .ok r →
      ∀ x, x ∈ r ↔ x ∈ l ∧ p x = .ok true := by
  intro l
  induction l with
  | nil =>
    intro r h x
    unfold jsFilterM at h
    simp only [Except.ok.injEq] at h
    subst h
    simp
  | cons a as ih =>
    intro r h x
    unfold jsFilterM at h
    cases hp : p a with
    | error e => rw [hp, exceptBind_err] at h; cases h
    | ok b =>
      rw [hp, exceptBind_ok] at h
      cases hr : jsFilterM p as with
      | error e => rw [hr, exceptBind_err] at h; cases h
      | ok rest =>
        rw [hr, exceptBind_ok] at h
        simp only [pure, Except.pure, Except.ok.injEq] at h
        subst h
        have hrest := ih rest hr x
        cases b with
        | true =>
          have e : (if (true = true) then a :: rest else rest) = a :: rest := rfl
          rw [e]
          simp only [List.mem_cons, hrest]
          constructor
          · rintro (rfl | ⟨h1, h2⟩)
            · exact ⟨Or.inl rfl, hp⟩
            · exact ⟨Or.inr h1, h2⟩
          · rintro ⟨rfl | h1, h2⟩
            · exact Or.inl rfl
            · exact Or.inr ⟨h1, h2⟩
        | false =>
          have e : (if (false = true) then a :: rest else rest) = rest := rfl
          rw [e]
          rw [hrest]
          simp only [List.mem_cons]
          constructor
          · rintro ⟨h1, h2⟩
            exact ⟨Or.inr h1, h2⟩
          · rintro ⟨rfl | h1, h2⟩
            · rw [hp] at h2; cases h2
            · exact ⟨h1, h2⟩

/-- Every request issued by the repoint loop is a PUT (env var) or a POST
(deploy). -/
theorem repointLoop_methods (burl : String) (api : Api) (ek nd : JSVal) :
    ∀ l c, c ∈ (repointLoop burl api ek nd l).2 →
      c.method = "PUT" ∨ c.method = "POST" := by
  intro l
  induction l with
  | nil => intro c hc; simp [repointLoop] at hc
  | cons s rest ih =>
    intro c hc
    unfold repointLoop at hc
    cases h1 : jsGet s "id" with
    | error e => simp only [h1] at hc; simp at hc
    | ok sid =>
      simp only [h1] at hc
      cases h2 : jsGet nd "internalDatabaseUrl" with
      | error e => simp only [h2] at hc; simp at hc
      | ok url =>
        simp only [h2] at hc
        cases h3 : (updateEnvVariable burl api sid ek url).1 with
        | error e =>
          simp only [h3] at hc
          simp only [updateEnvVariable, List.mem_singleton] at hc
          subst hc
          left
          rfl
        | ok v =>
          simp only [h3] at hc
          cases h4 : (deployService burl api sid).1 with
          | error e =>
            simp only [h4] at hc
            simp only [updateEnvVariable, deployService, List.cons_append,
              List.nil_append, List.mem_cons, List.not_mem_nil, or_false] at hc
            rcases hc with rfl | rfl
            · left; rfl
            · right; rfl
          | ok w =>
            simp only [h4] at hc
            simp only [updateEnvVariable, deployService, List.cons_append,
              List.nil_append, List.mem_cons, List.mem_append] at hc
            rcases hc with rfl | rfl | hc
            · left; rfl
            · right; rfl
            · exact ih c hc

/-- Once `owner.id` reads successfully, the creation half always issues
the create POST right after the calls accumulated so far. -/
theorem rebuildCreate_trace (burl : String) (api : Api) (dn ek : JSVal)
    (t : List ApiCall) (owner : JSVal) (sv : List JSVal) (oid : JSVal)
    (h : jsGet owner "id" = .ok oid) :
    ∃ rest, (rebuildCreate burl api dn ek t owner sv).2 =
      t ++ createCall burl dn oid :: rest := by
  unfold rebuildCreate
  simp only [h]
  cases hc : (createDatabase burl api dn oid).1 with
  | error e => exact ⟨[], by simp [createDatabase]⟩
  | ok dbData =>
    simp only [hc]
    cases hd : jsDestr4 dbData "name" "status" "id" "createdAt" with
    | error e => exact ⟨[], by simp [hd, createDatabase]⟩
    | ok q =>
      obtain ⟨nm, st, did, cr⟩ := q
      simp only [hd]
      cases h1 : (fetchConnectionInfo burl api did).1 with
      | error e =>
        exact ⟨[getCall (connInfoUrl burl did)], by
          simp [h1, createDatabase, fetchConnectionInfo]⟩
      | ok connData =>
        simp only [h1]
        cases h2 : jsGet connData "internalConnectionString" with
        | error e =>
          exact ⟨[getCall (connInfoUrl burl did)], by
            simp [h2, createDatabase, fetchConnectionInfo]⟩
        | ok ics =>
          simp only [h2]
          refine ⟨getCall (connInfoUrl burl did) ::
            (repointLoop burl api ek
              (jsSetField (JSVal.obj [("name", nm), ("status", st), ("id", did),
                ("createdAt", cr)]) "internalDatabaseUrl" ics) sv).2, ?_⟩
          cases h3 : (repointLoop burl api ek
              (jsSetField (JSVal.obj [("name", nm), ("status", st), ("id", did),
                ("createdAt", cr)]) "internalDatabaseUrl" ics) sv).1 <;>
            simp [h3, createDatabase, fetchConnectionInfo]

/-- Every request issued by the creation half, beyond the calls
accumulated so far, is a POST, GET or PUT — never a DELETE. -/
theorem rebuildCreate_methods (burl : String) (api : Api) (dn ek : JSVal)
    (t : List ApiCall) (owner : JSVal) (sv : List JSVal) :
    ∀ c ∈ (rebuildCreate burl api dn ek t owner sv).2,
      c ∈ t ∨ c.method = "POST" ∨ c.method = "GET" ∨ c.method = "PUT" := by
  intro c hc
  unfold rebuildCreate at hc
  cases h : jsGet owner "id" with
  | error e => simp only [h] at hc; exact Or.inl hc
  | ok oid =>
    simp only [h] at hc
    cases hcr : (createDatabase burl api dn oid).1 with
    | error e =>
      simp only [hcr] at hc
      simp only [createDatabase, List.mem_append, List.mem_singleton] at hc
      rcases hc with hc | rfl
      · exact Or.inl hc
      · right; left; rfl
    | ok dbData =>
      simp only [hcr] at hc
      cases hd : jsDestr4 dbData "name" "status" "id" "createdAt" with
      | error e =>
        simp only [hd] at hc
        simp only [createDatabase, List.mem_append, List.mem_singleton] at hc
        rcases hc with hc | rfl
        · exact Or.inl hc
        · right; left; rfl
      | ok q =>
        obtain ⟨nm, st, did, cr⟩ := q
        simp only [hd] at hc
        cases h1 : (fetchConnectionInfo burl api did).1 with
        | error e =>
          simp only [h1] at hc
          simp only [createDatabase, fetchConnectionInfo, List.mem_append,
            List.mem_singleton] at hc
          rcases hc with (hc | rfl) | rfl
          · exact Or.inl hc
          · right; left; rfl
          · right; right; left; rfl
        | ok connData =>
          simp only [h1] at hc
          cases h2 : jsGet connData "internalConnectionString" with
          | error e =>
            simp only [h2] at hc
            simp only [createDatabase, fetchConnectionInfo, List.mem_append,
              List.mem_singleton] at hc
            rcases hc with (hc | rfl) | rfl
            · exact Or.inl hc
            · right; left; rfl
            · right; right; left; rfl
          | ok ics =>
            simp only [h2] at hc
            have hloop := repointLoop_methods burl api ek
              (jsSetField (JSVal.obj [("name", nm), ("status", st), ("id", did),
                ("createdAt", cr)]) "internalDatabaseUrl" ics) sv
            cases h3 : (repointLoop burl api ek
                (jsSetField (JSVal.obj [("name", nm), ("status", st), ("id", did),
                  ("createdAt", cr)]) "internalDatabaseUrl" ics) sv).1 with
            | error e =>
              simp only [h3] at hc
              simp only [createDatabase, fetchConnectionInfo, List.mem_append,
                List.mem_singleton] at hc
              rcases hc with ((hc | rfl) | rfl) | hc
              · exact Or.inl hc
              · right; left; rfl
              · right; right; left; rfl
              · rcases hloop c hc with h' | h'
                · right; right; right; exact h'
                · right; left; exact h'
            | ok u =>
              simp only [h3] at hc
              simp only [createDatabase, fetchConnectionInfo, List.mem_append,
                List.mem_singleton] at hc
              rcases hc with ((hc | rfl) | rfl) | hc
              · exact Or.inl hc
              · right; left; rfl
              · right; right; left; rfl
              · rcases hloop c hc with h' | h'
                · right; right; right; exact h'
                · right; left; exact h'

/-- The `jsStrictEq v null` holds exactly for `null` itself. -/
theorem jsStrictEq_null_iff (v : JSVal) : jsStrictEq v JSVal.null = true ↔ v = JSVal.null := by
  cases v <;> simp [jsStrictEq]

/-- A non-`null` value is strictly unequal to `null`. -/
theorem jsStrictEq_null_false (v : JSVal) (h : v ≠ JSVal.null) :
    jsStrictEq v JSVal.null = false := by
  cases hb : jsStrictEq v JSVal.null
  · rfl
  · exact absurd ((jsStrictEq_null_iff v).mp hb) h

/-- Every request a fan-out branch issues is a GET (the events lookup). -/
theorem fanOutOne_methods (api : Api) (s : JSVal) :
    ∀ c ∈ (fanOutOne api s).2, c.method = "GET" := by
  intro c hc
  unfold fanOutOne fetchEventDetails at hc
  cases h1 : jsGet s "name" <;> cases h2 : jsGet s "id" <;> cases h3 : jsGet s "type" <;>
    simp only [h1, h2, h3] at hc <;> try simp at hc
  rename_i nm sid ty
  cases h4 : eventDetailsResult (api (getCall (eventsUrl realBase sid))) <;>
    simp only [h4, List.mem_singleton] at hc <;> subst hc <;> rfl

/-- Every request the whole fan-out issues is a GET. -/
theorem fanOut_methods (api : Api) :
    ∀ l c, c ∈ (fanOut api l).2 → c.method = "GET" := by
  intro l
  induction l with
  | nil => intro c hc; simp [fanOut] at hc
  | cons s rest ih =>
    intro c hc
    unfold fanOut at hc
    rcases hone : (fanOutOne api s).1 with e | v <;>
      rcases hmore : (fanOut api rest).1 with e2 | vs <;>
      simp only [hone, hmore, List.mem_append] at hc <;>
      rcases hc with hc | hc
    all_goals first
      | exact fanOutOne_methods api s c hc
      | exact ih c hc

/-- A fan-out over branches that all succeed with non-`null` results
yields as many entries as services, none of them `null`. -/
theorem fanOut_ok_nonnull (api : Api) :
    ∀ l, (∀ s ∈ l, ∃ o, (fanOutOne api s).1 = .ok o ∧ o ≠ JSVal.null) →
      ∃ res, (fanOut api l).1 = .ok res ∧ res.length = l.length ∧ JSVal.null ∉ res := by
  intro l
  induction l with
  | nil => intro _; exact ⟨[], rfl, rfl, by simp⟩
  | cons s rest ih =>
    intro h
    obtain ⟨o, ho, hno⟩ := h s (List.mem_cons_self s rest)
    obtain ⟨res, hres, hlen, hnull⟩ := ih (fun x hx => h x (List.mem_cons_of_mem _ hx))
    refine ⟨o :: res, ?_, ?_, ?_⟩
    · unfold fanOut
      simp only [ho, hres]
    · simp [hlen]
    · intro hmem
      rcases List.mem_cons.mp hmem with heq | hmem2
      · exact hno heq.symm
      · exact hnull hmem2

/-- Successful fan-outs compose over list concatenation. -/
theorem fanOut_append_ok (api : Api) :
    ∀ l1 l2 r1 r2, (fanOut api l1).1 = .ok r1 → (fanOut api l2).1 = .ok r2 →
      (fanOut api (l1 ++ l2)).1 = .ok (r1 ++ r2) := by
  intro l1
  induction l1 with
  | nil =>
    intro l2 r1 r2 h1 h2
    simp only [fanOut, Except.ok.injEq] at h1
    subst h1
    simpa using h2
  | cons s rest ih =>
    intro l2 r1 r2 h1 h2
    rw [List.cons_append]
    unfold fanOut at h1 ⊢
    rcases hone : (fanOutOne api s).1 with e | v <;>
      rcases hmore : (fanOut api rest).1 with e2 | vs <;>
      simp only [hone, hmore] at h1 <;>
      cases h1
    rw [ih l2 vs r2 hmore h2]
    rfl

/-- A fan-out starting with a branch that was mapped to `null` prepends
that `null` to the remaining results. -/
theorem fanOut_cons_null (api : Api) (bad : JSVal) (rest : List JSVal) (r : List JSVal)
    (hbad : (fanOutOne api bad).1 = .ok JSVal.null) (hrest : (fanOut api rest).1 = .ok r) :
    (fanOut api (bad :: rest)).1 = .ok (JSVal.null :: r) := by
  unfold fanOut
  simp only [hbad, hrest]

/-- The final `service !== null` filter drops exactly the one `null` left
by the failed branch. -/
theorem filter_nonnull (r1 r2 : List JSVal) (h1 : JSVal.null ∉ r1) (h2 : JSVal.null ∉ r2) :
    (r1 ++ JSVal.null :: r2).filter (fun s => !(jsStrictEq s JSVal.null)) = r1 ++ r2 := by
  rw [List.filter_append, List.filter_cons]
  have e0 : (!(jsStrictEq JSVal.null JSVal.null)) = false := rfl
  rw [e0]
  have e1 : r1.filter (fun s => !(jsStrictEq s JSVal.null)) = r1 := by
    apply List.filter_eq_self.mpr
    intro a ha
    have : a ≠ JSVal.null := fun hh => h1 (hh ▸ ha)
    simp [jsStrictEq_null_false a this]
  have e2 : r2.filter (fun s => !(jsStrictEq s JSVal.null)) = r2 := by
    apply List.filter_eq_self.mpr
    intro a ha
    have : a ≠ JSVal.null := fun hh => h2 (hh ▸ ha)
    simp [jsStrictEq_null_false a this]
  simp [e1, e2]

/-- A fan-out branch whose detail fetch rejects resolves to `null`. -/
theorem fanOutOne_null_of_fail (api : Api) (s nm sid ty er : JSVal)
    (h1 : jsGet s "name" = .ok nm) (h2 : jsGet s "id" = .ok sid)
    (h3 : jsGet s "type" = .ok ty)
    (h4 : (fetchEventDetails realBase api sid).1 = .error er) :
    (fanOutOne api s).1 = .ok JSVal.null := by
  unfold fanOutOne
  simp only [h1, h2, h3]
  unfold fetchEventDetails at h4
  simp only at h4
  unfold fetchEventDetails
  simp only [h4]

/-- A fan-out branch whose detail fetch succeeds resolves to the enriched
service object. -/
theorem fanOutOne_obj_of_ok (api : Api) (s nm sid ty d : JSVal)
    (h1 : jsGet s "name" = .ok nm) (h2 : jsGet s "id" = .ok sid)
    (h3 : jsGet s "type" = .ok ty)
    (h4 : (fetchEventDetails realBase api sid).1 = .ok d) :
    (fanOutOne api s).1 =
      .ok (JSVal.obj [("name", nm), ("id", sid), ("type", ty), ("details", d)]) := by
  unfold fanOutOne
  simp only [h1, h2, h3]
  unfold fetchEventDetails at h4
  simp only at h4
  unfold fetchEventDetails
  simp only [h4]

/-- A successful run of the web-service filter callback decomposes into
its two property reads. -/
theorem webPred_ok_elim (x : JSVal) (b : Bool) (h : webPred x = .ok b) :
    ∃ sv ty, jsGet x "service" = .ok sv ∧ jsGet sv "type" = .ok ty ∧
      b = jsStrictEq ty (JSVal.str "web_service") := by
  unfold webPred at h
  cases h1 : jsGet x "service" with
  | error e => rw [h1, exceptBind_err] at h; cases h
  | ok sv =>
    rw [h1, exceptBind_ok] at h
    cases h2 : jsGet sv "type" with
    | error e => rw [h2, exceptBind_err] at h; cases h
    | ok ty =>
      rw [h2, exceptBind_ok] at h
      simp only [pure, Except.pure, Except.ok.injEq] at h
      exact ⟨sv, ty, rfl, h2, h.symm⟩

/-- Membership in a successful interactive/module `fetchServices` result:
exactly the raw items whose `service.type` is `"web_service"`. -/
theorem fetchServices_raw_mem (burl : String) (api : Api) (st : Int)
    (items res : List JSVal)
    (hapi : api (getCall (servicesUrl burl)) = .ok ⟨st, JSVal.arr items⟩)
    (hres : (fetchServices_raw burl api).1 = .ok res) :
    ∀ x, x ∈ res ↔ x ∈ items ∧ webPred x = .ok true := by
  intro x
  unfold fetchServices_raw servicesRawResult at hres
  simp only [hapi] at hres
  cases hf : jsFilterM webPred items with
  | error e => rw [hf] at hres; cases hres
  | ok kept =>
    rw [hf] at hres
    simp only [Except.ok.injEq] at hres
    subst hres
    have hmem := jsFilterM_mem webPred items kept hf x
    rw [List.mem_filter]
    constructor
    · rintro ⟨hk, _⟩
      exact hmem.mp hk
    · intro hx
      refine ⟨hmem.mpr hx, ?_⟩
      have hxnull : x ≠ JSVal.null := by
        rintro rfl
        rcases hx with ⟨_, hw⟩
        rw [show webPred JSVal.null = .error typeErr from rfl] at hw
        cases hw
      simp [jsStrictEq_null_false x hxnull]

theorem jsGet_ok_any (v : JSVal) (k k' : String) (x : JSVal) (h : jsGet v k = .ok x) :
    ∃ y, jsGet v k' = .ok y := by
  cases v with
  | undef => cases h
  | null => cases h
  | bool b => exact ⟨_, rfl⟩
  | num n => exact ⟨_, rfl⟩
  | str s => exact ⟨_, rfl⟩
  | obj fs => exact ⟨_, rfl⟩
  | arr xs => exact ⟨_, rfl⟩

theorem deployFoldStep_ok (acc item : JSVal) (h : eventReadable item) :
    ∃ r, deployFoldStep acc item = .ok r := by
  obtain ⟨ev, ty, h1, h2⟩ := h
  unfold deployFoldStep
  rw [h1, exceptBind_ok, h2, exceptBind_ok]
  cases hb : jsStrictEq ty (JSVal.str "deploy_ended")
  · rw [cond_false]
    exact ⟨acc, rfl⟩
  · rw [cond_true]
    obtain ⟨d, hd⟩ := jsGet_ok_any ev "type" "details" ty h2
    obtain ⟨ts, hts⟩ := jsGet_ok_any ev "type" "timestamp" ty h2
    rw [hd, exceptBind_ok, hts, exceptBind_ok]
    exact ⟨_, rfl⟩

theorem deployFoldStep_deploy (acc item d ts : JSVal) (h : eventDeployEnded item d ts) :
    deployFoldStep acc item = .ok (jsSpreadWith d "lastDeployed" ts) := by
  obtain ⟨ev, h1, h2, h3, h4⟩ := h
  unfold deployFoldStep
  rw [h1, exceptBind_ok, h2, exceptBind_ok]
  have hb : jsStrictEq (JSVal.str "deploy_ended") (JSVal.str "deploy_ended") = true := rfl
  rw [hb, cond_true, h3, exceptBind_ok, h4, exceptBind_ok]
  rfl

theorem jsFoldM_skip (l : List JSVal) (acc : JSVal)
    (h : ∀ item ∈ l, eventSkipped item) :
    jsFoldM deployFoldStep acc l = .ok acc := by
  induction l with
  | nil => rfl
  | cons x xs ih =>
    obtain ⟨ev, ty, h1, h2, h3⟩ := h x (List.mem_cons_self x xs)
    have hstep : deployFoldStep acc x = .ok acc := by
      unfold deployFoldStep
      rw [h1, exceptBind_ok, h2, exceptBind_ok, h3, cond_false]
      rfl
    unfold jsFoldM
    rw [hstep, exceptBind_ok]
    exact ih (fun i hi => h i (List.mem_cons_of_mem _ hi))

theorem jsFoldM_readable (l : List JSVal) :
    (∀ item ∈ l, eventReadable item) →
      ∀ acc, ∃ acc', jsFoldM deployFoldStep acc l = .ok acc' := by
  induction l with
  | nil => intro _ acc; exact ⟨acc, rfl⟩
  | cons x xs ih =>
    intro h acc
    obtain ⟨r, hr⟩ := deployFoldStep_ok acc x (h x (List.mem_cons_self x xs))
    obtain ⟨acc', hacc⟩ := ih (fun i hi => h i (List.mem_cons_of_mem _ hi)) r
    refine ⟨acc', ?_⟩
    unfold jsFoldM
    rw [hr, exceptBind_ok]
    exact hacc

theorem jsFoldM_append_ok (f : JSVal → JSVal → Except JSVal JSVal)
    (l1 l2 : List JSVal) :
    ∀ init acc, jsFoldM f init l1 = .ok acc →
      jsFoldM f init (l1 ++ l2) = jsFoldM f acc l2 := by
  induction l1 with
  | nil =>
    intro init acc h
    unfold jsFoldM at h
    simp only [Except.ok.injEq] at h
    subst h
    simp
  | cons x xs ih =>
    intro init acc h
    rw [List.cons_append]
    have hH : jsFoldM f init (x :: xs) = (f init x >>= fun a => jsFoldM f a xs) := rfl
    have hL : jsFoldM f init (x :: (xs ++ l2)) =
      (f init x >>= fun a => jsFoldM f a (xs ++ l2)) := rfl
    rw [hH] at h
    rw [hL]
    cases hx : f init x with
    | error e => rw [hx, exceptBind_err] at h; cases h
    | ok acc1 =>
      rw [hx, exceptBind_ok] at h
      simp only [exceptBind_ok]
      exact ih acc1 acc h

theorem lookupField_append_last (l : List (String × JSVal)) (k : String) (x : JSVal)
    (h : ∀ p ∈ l, p.1 ≠ k) : lookupField (l ++ [(k, x)]) k = x := by
  induction l with
  | nil => simp [lookupField, List.find?]
  | cons p ps ih =>
    have hne : (p.1 == k) = false := beq_eq_false_iff_ne.mpr (h p (List.mem_cons_self p ps))
    have := ih (fun q hq => h q (List.mem_cons_of_mem _ hq))
    simp only [lookupField, List.cons_append, List.find?] at this ⊢
    rw [hne]
    exact this

theorem jsGet_spread_last (d : JSVal) (k : String) (x : JSVal) :
    jsGet (jsSpreadWith d k x) k = .ok x := by
  unfold jsSpreadWith
  simp only [jsGet]
  rw [lookupField_append_last]
  intro p hp
  have := List.mem_filter.mp hp
  simpa using this.2

/-- C7: for every `fetchOwner` call whose response resolves with a status
other than 200, `fetchOwner` returns `undefined` without raising any
error (the single GET is still issued); the missing owner only surfaces
later, because reading `.id` on `undefined` throws. -/
theorem c7_owner_silent_undefined (burl : String) (api : Api) (st : Int) (d : JSVal)
    (hapi : api (getCall (ownersUrl burl)) = .ok ⟨st, d⟩) (h200 : st ≠ 200) :
    fetchOwner burl api = (.ok JSVal.undef, [getCall (ownersUrl burl)]) ∧
      jsGet JSVal.undef "id" = .error typeErr := by
  refine ⟨?_, rfl⟩
  unfold fetchOwner ownerResult
  rw [hapi]
  simp [h200]

/-- C7 witness: a concrete 404-style response. -/
theorem c7_owner_silent_undefined_witness :
    fetchOwner realBase (fun _ => .ok ⟨404, JSVal.arr []⟩) =
      (.ok JSVal.undef, [getCall (ownersUrl realBase)]) ∧
      jsGet JSVal.undef "id" = .error typeErr :=
  c7_owner_silent_undefined realBase (fun _ => .ok ⟨404, JSVal.arr []⟩) 404
    (JSVal.arr []) rfl (by decide)

/-- C10: on a 200 response `fetchOwner`'s result is the destructuring of
`response.data[0]` — the silent-`undefined` fall-through branch is never
taken on a 200 response — and in particular a 200 response with an empty
data array makes `fetchOwner` throw (destructuring `undefined`) rather
than return `undefined`. -/
theorem c10_empty_owner_throws (burl : String) (api : Api) (d : JSVal)
    (hapi : api (getCall (ownersUrl burl)) = .ok ⟨200, d⟩) :
    (fetchOwner burl api).1 = (jsIndex0 d >>= fun f => jsGet f "owner") ∧
      (d = JSVal.arr [] → (fetchOwner burl api).1 = .error typeErr) := by
  have hmain : (fetchOwner burl api).1 = (jsIndex0 d >>= fun f => jsGet f "owner") := by
    show ownerResult (api (getCall (ownersUrl burl))) = _
    rw [hapi]
    unfold ownerResult
    cases h0 : jsIndex0 d with
    | error e => simp [h0, exceptBind_err]
    | ok first => simp [h0, exceptBind_ok]
  refine ⟨hmain, ?_⟩
  rintro rfl
  rw [hmain]
  rfl

/-- C10 witness: a concrete 200 response with an empty owners array. -/
theorem c10_empty_owner_throws_witness :
    (fetchOwner realBase (fun _ => .ok ⟨200, JSVal.arr []⟩)).1 =
      (jsIndex0 (JSVal.arr []) >>= fun f => jsGet f "owner") ∧
      (JSVal.arr [] = JSVal.arr [] →
        (fetchOwner realBase (fun _ => .ok ⟨200, JSVal.arr []⟩)).1 = .error typeErr) :=
  c10_empty_owner_throws realBase (fun _ => .ok ⟨200, JSVal.arr []⟩) (JSVal.arr []) rfl

/-- C4: in the validating variants (`runScript` of the interactive script
and `rebuildDatabase` of the module script), whenever any of the four
required configuration values is unset (falsy), the run aborts with a
non-empty missing-variables message and issues no HTTP calls at all. -/
theorem c4_config_guard (cfg : Config) (api : Api)
    (h : jsTruthy cfg.databaseName = false ∨ jsTruthy cfg.databaseKey = false ∨
      cfg.baseUrl = "" ∨ jsTruthy cfg.key = false) :
    runScript cfg api = (.configMissing, []) ∧
      rebuild_mod cfg api = (.configMissing, []) ∧
      validateMissing cfg ≠ [] := by
  have hlen : (validateMissing cfg).length ≠ 0 := by
    rcases h with h | h | h | h <;>
      simp [validateMissing, h, List.length_append]
  have hval : validateVariables cfg = false := by
    unfold validateVariables
    cases hb : ((validateMissing cfg).length == 0) with
    | false => rfl
    | true => exact absurd (beq_iff_eq.mp hb) hlen
  refine ⟨?_, ?_, ?_⟩
  · unfold runScript
    rw [hval]
    rfl
  · unfold rebuild_mod
    rw [hval]
    rfl
  · intro heq
    rw [heq] at hlen
    exact hlen rfl

/-- C4 witness: the configuration exactly as shipped (`databaseName` and
`databaseKey` still `null`). -/
theorem c4_config_guard_witness :
    runScript ⟨JSVal.null, JSVal.null, realBase, JSVal.str "k1"⟩ apiFan =
      (.configMissing, []) ∧
      rebuild_mod ⟨JSVal.null, JSVal.null, realBase, JSVal.str "k1"⟩ apiFan =
        (.configMissing, []) ∧
      validateMissing ⟨JSVal.null, JSVal.null, realBase, JSVal.str "k1"⟩ ≠ [] :=
  c4_config_guard ⟨JSVal.null, JSVal.null, realBase, JSVal.str "k1"⟩ apiFan
    (Or.inl rfl)

/-- C6: for every services-list response and every ordering of its
entries, the interactive/module `fetchServices` retains exactly the
entries whose `service.type` is strictly equal to `"web_service"` and
excludes all others. -/
theorem c6_web_service_filter (burl : String) (api : Api) (st : Int)
    (items res : List JSVal) (t : List ApiCall)
    (hapi : api (getCall (servicesUrl burl)) = .ok ⟨st, JSVal.arr items⟩)
    (hres : fetchServices_raw burl api = (.ok res, t)) :
    ∀ x, x ∈ res ↔ x ∈ items ∧ webPred x = .ok true :=
  fetchServices_raw_mem burl api st items res hapi
    (by rw [hres])

/-- C6 witness: the two-service response of `apiTwo`, instantiated at its
first raw item. -/
theorem c6_web_service_filter_witness :
    JSVal.obj [("service", JSVal.obj [("id", JSVal.str "a"), ("type", JSVal.str "web_service")])] ∈
      [JSVal.obj [("service", JSVal.obj [("id", JSVal.str "a"), ("type", JSVal.str "web_service")])],
       JSVal.obj [("service", JSVal.obj [("id", JSVal.str "b"), ("type", JSVal.str "web_service")])]] ↔
    JSVal.obj [("service", JSVal.obj [("id", JSVal.str "a"), ("type", JSVal.str "web_service")])] ∈
      [JSVal.obj [("service", JSVal.obj [("id", JSVal.str "a"), ("type", JSVal.str "web_service")])],
       JSVal.obj [("service", JSVal.obj [("id", JSVal.str "b"), ("type", JSVal.str "web_service")])]] ∧
    webPred (JSVal.obj [("service", JSVal.obj [("id", JSVal.str "a"), ("type", JSVal.str "web_service")])]) =
      .ok true :=
  c6_web_service_filter realBase apiTwo 200
    [JSVal.obj [("service", JSVal.obj [("id", JSVal.str "a"), ("type", JSVal.str "web_service")])],
     JSVal.obj [("service", JSVal.obj [("id", JSVal.str "b"), ("type", JSVal.str "web_service")])]]
    [JSVal.obj [("service", JSVal.obj [("id", JSVal.str "a"), ("type", JSVal.str "web_service")])],
     JSVal.obj [("service", JSVal.obj [("id", JSVal.str "b"), ("type", JSVal.str "web_service")])]]
    [getCall (servicesUrl realBase)] rfl rfl
    (JSVal.obj [("service", JSVal.obj [("id", JSVal.str "a"), ("type", JSVal.str "web_service")])])


/-- C9: in the interactive and module variants, `fetchServices` returns
the raw list items with the service object still nested under `.service`;
when (as in the platform's list responses) the raw items carry no
top-level `id`, reading `.id` on every returned entry yields `undefined`,
and the repoint loop's env-var PUT and deploy POST then address the
literal id `undefined` in their URLs. -/
theorem c9_raw_items_undefined_id (burl : String) (api : Api) (st : Int)
    (items res : List JSVal) (t : List ApiCall)
    (hapi : api (getCall (servicesUrl burl)) = .ok ⟨st, JSVal.arr items⟩)
    (hids : ∀ x ∈ items, jsGet x "id" = .ok JSVal.undef)
    (hres : fetchServices_raw burl api = (.ok res, t)) :
    (∀ x ∈ res, jsGet x "id" = .ok JSVal.undef ∧
      ∃ sv ty, jsGet x "service" = .ok sv ∧ jsGet sv "type" = .ok ty) ∧
    (∀ ek nd u s rest, jsGet s "id" = .ok JSVal.undef →
      jsGet nd "internalDatabaseUrl" = .ok u →
      (repointLoop burl api ek nd (s :: rest)).2.head? =
        some (putCall burl JSVal.undef ek u) ∧
      (putCall burl JSVal.undef ek u).url =
        burl ++ "/services/undefined/env-vars/" ++ jsToStr ek ∧
      ∀ pr, api (putCall burl JSVal.undef ek u) = .ok pr →
        (repointLoop burl api ek nd (s :: rest)).2[1]? =
          some (deployCall burl JSVal.undef) ∧
        (deployCall burl JSVal.undef).url = burl ++ "/services/undefined/deploys") := by
  constructor
  · intro x hx
    have hmem := fetchServices_raw_mem burl api st items res hapi (by rw [hres]) x
    obtain ⟨hin, hweb⟩ := hmem.mp hx
    obtain ⟨sv, ty, h1, h2, _⟩ := webPred_ok_elim x true hweb
    exact ⟨hids x hin, sv, ty, h1, h2⟩
  · intro ek nd u s rest hid hurl
    refine ⟨?_, ?_, ?_⟩
    · cases hup : (updateEnvVariable burl api JSVal.undef ek u).1 with
      | error e =>
        unfold repointLoop
        simp only [hid, hurl, hup]
        simp [updateEnvVariable]
      | ok v =>
        unfold repointLoop
        simp only [hid, hurl, hup]
        cases hdep : (deployService burl api JSVal.undef).1 with
        | error e =>
          simp only [hdep]
          simp [updateEnvVariable, deployService]
        | ok w =>
          simp only [hdep]
          simp [updateEnvVariable, deployService]
    · unfold putCall
      simp only [jsToStr]
      rw [String.append_assoc burl "/services/" "undefined",
        show "/services/" ++ "undefined" = "/services/undefined" from by decide,
        String.append_assoc burl "/services/undefined" "/env-vars/",
        show "/services/undefined" ++ "/env-vars/" = "/services/undefined/env-vars/"
          from by decide]
    · intro pr hpr
      have hup : (updateEnvVariable burl api JSVal.undef ek u).1 = .ok pr.data := by
        unfold updateEnvVariable
        rw [hpr]
        rfl
      constructor
      · unfold repointLoop
        simp only [hid, hurl, hup]
        cases hdep : (deployService burl api JSVal.undef).1 with
        | error e =>
          simp only [hdep]
          simp [updateEnvVariable, deployService]
        | ok w =>
          simp only [hdep]
          simp [updateEnvVariable, deployService]
      · unfold deployCall
        simp only [jsToStr]
        rw [String.append_assoc burl "/services/" "undefined",
          show "/services/" ++ "undefined" = "/services/undefined" from by decide,
          String.append_assoc burl "/services/undefined" "/deploys",
          show "/services/undefined" ++ "/deploys" = "/services/undefined/deploys"
            from by decide]

/-- C9 witness: the single-service scenario of `apiFan`, whose raw item
carries only a `service` field, so its `.id` reads as `undefined` and the
first repoint PUT addresses service id `undefined`. -/
theorem c9_raw_items_undefined_id_witness :
    (jsGet (JSVal.obj [("service", JSVal.obj [("id", JSVal.str "s1"),
        ("type", JSVal.str "web_service")])]) "id" = .ok JSVal.undef ∧
      ∃ sv ty, jsGet (JSVal.obj [("service", JSVal.obj [("id", JSVal.str "s1"),
        ("type", JSVal.str "web_service")])]) "service" = .ok sv ∧
        jsGet sv "type" = .ok ty) ∧
    (repointLoop realBase apiFan (JSVal.str "DATABASE_URL")
        (JSVal.obj [("internalDatabaseUrl", JSVal.str "conn1")])
        [JSVal.obj [("service", JSVal.obj [("id", JSVal.str "s1"),
          ("type", JSVal.str "web_service")])]]).2.head? =
      some (putCall realBase JSVal.undef (JSVal.str "DATABASE_URL") (JSVal.str "conn1")) := by
  have H := c9_raw_items_undefined_id realBase apiFan 200
    [JSVal.obj [("service", JSVal.obj [("id", JSVal.str "s1"),
      ("type", JSVal.str "web_service")])]]
    [JSVal.obj [("service", JSVal.obj [("id", JSVal.str "s1"),
      ("type", JSVal.str "web_service")])]]
    [getCall (servicesUrl realBase)] rfl
    (by
      intro x hx
      rw [List.mem_singleton.mp hx]
      rfl)
    rfl
  refine ⟨H.1 _ (List.mem_singleton.mpr rfl), ?_⟩
  exact (H.2 (JSVal.str "DATABASE_URL")
    (JSVal.obj [("internalDatabaseUrl", JSVal.str "conn1")]) (JSVal.str "conn1")
    (JSVal.obj [("service", JSVal.obj [("id", JSVal.str "s1"),
      ("type", JSVal.str "web_service")])]) [] rfl rfl).1

/-- Every request issued by the fan-out `fetchServices` is a GET. -/
theorem fetchServicesFan_methods (api : Api) :
    ∀ c ∈ (fetchServices_fan api).2, c.method = "GET" := by
  intro c hc
  unfold fetchServices_fan at hc
  cases hr : api (getCall (servicesUrl realBase)) with
  | error e =>
    simp only [hr, List.mem_singleton] at hc
    subst hc
    rfl
  | ok resp =>
    simp only [hr] at hc
    obtain ⟨st, data⟩ := resp
    cases data <;> try (simp only [List.mem_singleton] at hc; subst hc; rfl)
    rename_i items
    cases hf : jsFilterM webPred items with
    | error e =>
      simp only [hf, List.mem_singleton] at hc
      subst hc
      rfl
    | ok kept =>
      simp only [hf] at hc
      cases hm : jsMapM (fun it => jsGet it "service") kept with
      | error e =>
        simp only [hm, List.mem_singleton] at hc
        subst hc
        rfl
      | ok svcs =>
        simp only [hm] at hc
        cases hfan : (fanOut api svcs).1 <;>
          simp only [hfan, List.mem_cons] at hc <;>
          rcases hc with rfl | hc
        · rfl
        · exact fanOut_methods api svcs c hc
        · rfl
        · exact fanOut_methods api svcs c hc

/-- C1: in both the interactive/module orchestrator and the fan-out
orchestrator, a run that finds an existing database and gets a delete
response with a status other than 204 aborts right there: the run ends in
the delete-failed early return, and its trace holds only the three reads
and the DELETE — no create POST, no env-var PUT, no deploy POST. -/
theorem c1_delete_abort (cfg : Config) (api api1 : Api)
    (ow db did ow1 db1 did1 : JSVal) (sv sv1 : List JSVal) (dresp dresp1 : Resp)
    (h1 : (fetchOwner cfg.baseUrl api).1 = .ok ow)
    (h2 : (fetchServices_raw cfg.baseUrl api).1 = .ok sv)
    (h3 : (fetchDatabase cfg.baseUrl api).1 = .ok db)
    (h4 : isEmptyM db = .ok false)
    (h5 : jsGet db "id" = .ok did)
    (h6 : (deleteDatabase cfg.baseUrl api did).1 = .ok dresp)
    (h7 : dresp.status ≠ 204)
    (g1 : (fetchOwner realBase api1).1 = .ok ow1)
    (g2 : (fetchServices_fan api1).1 = .ok sv1)
    (g3 : (fetchDatabase realBase api1).1 = .ok db1)
    (g4 : isEmptyM db1 = .ok false)
    (g5 : jsGet db1 "id" = .ok did1)
    (g6 : (deleteDatabase realBase api1 did1).1 = .ok dresp1)
    (g7 : dresp1.status ≠ 204) :
    rebuild_v0 cfg api = (.deleteFailed,
      [getCall (ownersUrl cfg.baseUrl), getCall (servicesUrl cfg.baseUrl),
       getCall (postgresUrl cfg.baseUrl), deleteCall cfg.baseUrl did]) ∧
    (rebuild_v1 api1).1 = .deleteFailed ∧
    (∀ c ∈ (rebuild_v1 api1).2, c.method = "GET" ∨ c.method = "DELETE") := by
  have hv1 : rebuild_v1 api1 = (.deleteFailed,
      (fetchOwner realBase api1).2 ++ (fetchServices_fan api1).2 ++
        (fetchDatabase realBase api1).2 ++ (deleteDatabase realBase api1 did1).2) := by
    unfold rebuild_v1
    simp only [g1, g2, g3]
    unfold rebuildGuard
    simp only [g4]
    rw [if_neg Bool.false_ne_true]
    simp only [g5, g6]
    rw [if_neg g7]
  refine ⟨?_, ?_, ?_⟩
  · unfold rebuild_v0
    simp only [h1, h2, h3]
    unfold rebuildGuard
    simp only [h4]
    rw [if_neg Bool.false_ne_true]
    simp only [h5, h6]
    rw [if_neg h7]
    simp [fetchOwner, fetchServices_raw, fetchDatabase, deleteDatabase]
  · rw [hv1]
  · rw [hv1]
    intro c hc
    simp only [List.mem_append] at hc
    rcases hc with ((hc | hc) | hc) | hc
    · simp only [fetchOwner, List.mem_singleton] at hc
      subst hc
      left
      rfl
    · left
      exact fetchServicesFan_methods api1 c hc
    · simp only [fetchDatabase, List.mem_singleton] at hc
      subst hc
      left
      rfl
    · simp only [deleteDatabase, List.mem_singleton] at hc
      subst hc
      right
      rfl

/-- C1 witness: `apiDel`, whose DELETE on the existing database `db0`
answers 200; both orchestrators stop at the delete-failed return. -/
theorem c1_delete_abort_witness :
    rebuild_v0 cfgW apiDel = (.deleteFailed,
      [getCall (ownersUrl cfgW.baseUrl), getCall (servicesUrl cfgW.baseUrl),
       getCall (postgresUrl cfgW.baseUrl), deleteCall cfgW.baseUrl (JSVal.str "db0")]) ∧
    (rebuild_v1 apiDel).1 = .deleteFailed := by
  have H := c1_delete_abort cfgW apiDel apiDel
    (JSVal.obj [("id", JSVal.str "o1")])
    (JSVal.obj [("id", JSVal.str "db0"), ("name", JSVal.str "olddb")])
    (JSVal.str "db0")
    (JSVal.obj [("id", JSVal.str "o1")])
    (JSVal.obj [("id", JSVal.str "db0"), ("name", JSVal.str "olddb")])
    (JSVal.str "db0")
    [JSVal.obj [("service", JSVal.obj [("id", JSVal.str "s1"),
      ("type", JSVal.str "web_service")])]]
    [JSVal.obj [("name", JSVal.undef), ("id", JSVal.str "s1"),
      ("type", JSVal.str "web_service"), ("details", JSVal.obj [])]]
    ⟨200, JSVal.undef⟩ ⟨200, JSVal.undef⟩
    rfl rfl rfl rfl rfl rfl (by decide)
    rfl rfl rfl rfl rfl rfl (by decide)
  exact ⟨H.1, H.2.1⟩

/-- C2: when the database list is empty (`fetchDatabase` returns `{}`),
the delete step is skipped entirely — the trace holds no DELETE request at
all — and the run proceeds directly from the three reads to the create
POST. -/
theorem c2_skip_delete (cfg : Config) (api : Api) (ow oid : JSVal) (sv : List JSVal)
    (h1 : (fetchOwner cfg.baseUrl api).1 = .ok ow)
    (h2 : (fetchServices_raw cfg.baseUrl api).1 = .ok sv)
    (h3 : (fetchDatabase cfg.baseUrl api).1 = .ok (JSVal.obj []))
    (h4 : jsGet ow "id" = .ok oid) :
    (∃ rest, (rebuild_v0 cfg api).2 =
      getCall (ownersUrl cfg.baseUrl) :: getCall (servicesUrl cfg.baseUrl) ::
        getCall (postgresUrl cfg.baseUrl) ::
        createCall cfg.baseUrl cfg.databaseName oid :: rest) ∧
    ∀ c ∈ (rebuild_v0 cfg api).2, c.method ≠ "DELETE" := by
  have hEq : rebuild_v0 cfg api = rebuildCreate cfg.baseUrl api cfg.databaseName
      cfg.databaseKey
      [getCall (ownersUrl cfg.baseUrl), getCall (servicesUrl cfg.baseUrl),
       getCall (postgresUrl cfg.baseUrl)] ow sv := by
    unfold rebuild_v0
    simp only [h1, h2, h3]
    unfold rebuildGuard
    simp only [show isEmptyM (JSVal.obj []) = Except.ok true from rfl]
    rw [if_true]
    simp [fetchOwner, fetchServices_raw, fetchDatabase]
  constructor
  · obtain ⟨rest, hr⟩ := rebuildCreate_trace cfg.baseUrl api cfg.databaseName
      cfg.databaseKey
      [getCall (ownersUrl cfg.baseUrl), getCall (servicesUrl cfg.baseUrl),
       getCall (postgresUrl cfg.baseUrl)] ow sv oid h4
    refine ⟨rest, ?_⟩
    rw [hEq, hr]
    rfl
  · intro c hc
    rw [hEq] at hc
    rcases rebuildCreate_methods cfg.baseUrl api cfg.databaseName cfg.databaseKey
        _ ow sv c hc with hmem | h | h | h
    · simp only [List.mem_cons, List.mem_singleton, List.not_mem_nil, or_false] at hmem
      rcases hmem with rfl | rfl | rfl <;> simp [getCall]
    · rw [h]; decide
    · rw [h]; decide
    · rw [h]; decide

/-- C2 witness: the empty-database happy path of `apiFan`. -/
theorem c2_skip_delete_witness :
    (∃ rest, (rebuild_v0 cfgW apiFan).2 =
      getCall (ownersUrl cfgW.baseUrl) :: getCall (servicesUrl cfgW.baseUrl) ::
        getCall (postgresUrl cfgW.baseUrl) ::
        createCall cfgW.baseUrl cfgW.databaseName (JSVal.str "o1") :: rest) ∧
    ∀ c ∈ (rebuild_v0 cfgW apiFan).2, c.method ≠ "DELETE" :=
  c2_skip_delete cfgW apiFan (JSVal.obj [("id", JSVal.str "o1")]) (JSVal.str "o1")
    [JSVal.obj [("service", JSVal.obj [("id", JSVal.str "s1"),
      ("type", JSVal.str "web_service")])]]
    rfl rfl rfl rfl
/-- C5: in the fan-out `fetchServices`, when exactly one of the filtered
services' detail fetches rejects (and the rest resolve), the overall call
still succeeds and returns exactly N−1 enriched entries: the failing
branch is mapped to `null` and filtered out, without aborting the sibling
branches or the whole call. -/
theorem c5_fanout_partial_failure (api : Api) (st : Int)
    (items kept svcs pre post : List JSVal) (bad : JSVal)
    (hapi : api (getCall (servicesUrl realBase)) = .ok ⟨st, JSVal.arr items⟩)
    (hf : jsFilterM webPred items = .ok kept)
    (hm : jsMapM (fun it => jsGet it "service") kept = .ok svcs)
    (hsplit : svcs = pre ++ bad :: post)
    (hpre : ∀ s ∈ pre, detailOk api s)
    (hbad : detailFails api bad)
    (hpost : ∀ s ∈ post, detailOk api s) :
    ∃ res, (fetchServices_fan api).1 = .ok res ∧
      res.length = pre.length + post.length ∧ JSVal.null ∉ res := by
  subst hsplit
  have hpre' : ∀ s ∈ pre, ∃ o, (fanOutOne api s).1 = .ok o ∧ o ≠ JSVal.null := by
    intro s hs
    obtain ⟨nm, sid, ty, d, e1, e2, e3, e4⟩ := hpre s hs
    refine ⟨_, fanOutOne_obj_of_ok api s nm sid ty d e1 e2 e3 e4, ?_⟩
    intro hh
    cases hh
  have hpost' : ∀ s ∈ post, ∃ o, (fanOutOne api s).1 = .ok o ∧ o ≠ JSVal.null := by
    intro s hs
    obtain ⟨nm, sid, ty, d, e1, e2, e3, e4⟩ := hpost s hs
    refine ⟨_, fanOutOne_obj_of_ok api s nm sid ty d e1 e2 e3 e4, ?_⟩
    intro hh
    cases hh
  have hbad' : (fanOutOne api bad).1 = .ok JSVal.null := by
    obtain ⟨nm, sid, ty, er, e1, e2, e3, e4⟩ := hbad
    exact fanOutOne_null_of_fail api bad nm sid ty er e1 e2 e3 e4
  obtain ⟨r1, hr1, hlen1, hn1⟩ := fanOut_ok_nonnull api pre hpre'
  obtain ⟨r2, hr2, hlen2, hn2⟩ := fanOut_ok_nonnull api post hpost'
  have hall := fanOut_append_ok api pre (bad :: post) r1 (JSVal.null :: r2) hr1
    (fanOut_cons_null api bad post r2 hbad' hr2)
  refine ⟨r1 ++ r2, ?_, ?_, ?_⟩
  · unfold fetchServices_fan
    simp only [hapi, hf, hm, hall]
    rw [filter_nonnull r1 r2 hn1 hn2]
  · rw [List.length_append, hlen1, hlen2]
  · intro hmem
    rcases List.mem_append.mp hmem with h | h
    · exact hn1 h
    · exact hn2 h

/-- C5 witness: `apiTwo`, where service `b`'s event lookup rejects while
service `a`'s resolves; the result keeps exactly the one enriched entry. -/
theorem c5_fanout_partial_failure_witness :
    ∃ res, (fetchServices_fan apiTwo).1 = .ok res ∧
      res.length =
        ([JSVal.obj [("id", JSVal.str "a"), ("type", JSVal.str "web_service")]] :
          List JSVal).length + ([] : List JSVal).length ∧
      JSVal.null ∉ res :=
  c5_fanout_partial_failure apiTwo 200
    [JSVal.obj [("service", JSVal.obj [("id", JSVal.str "a"), ("type", JSVal.str "web_service")])],
     JSVal.obj [("service", JSVal.obj [("id", JSVal.str "b"), ("type", JSVal.str "web_service")])]]
    [JSVal.obj [("service", JSVal.obj [("id", JSVal.str "a"), ("type", JSVal.str "web_service")])],
     JSVal.obj [("service", JSVal.obj [("id", JSVal.str "b"), ("type", JSVal.str "web_service")])]]
    [JSVal.obj [("id", JSVal.str "a"), ("type", JSVal.str "web_service")],
     JSVal.obj [("id", JSVal.str "b"), ("type", JSVal.str "web_service")]]
    [JSVal.obj [("id", JSVal.str "a"), ("type", JSVal.str "web_service")]]
    []
    (JSVal.obj [("id", JSVal.str "b"), ("type", JSVal.str "web_service")])
    rfl rfl rfl rfl
    (by
      intro s hs
      rw [List.mem_singleton.mp hs]
      exact ⟨JSVal.undef, JSVal.str "a", JSVal.str "web_service", JSVal.obj [],
        rfl, rfl, rfl, rfl⟩)
    ⟨JSVal.undef, JSVal.str "b", JSVal.str "web_service", JSVal.str "boom",
      rfl, rfl, rfl, rfl⟩
    (fun s hs => absurd hs (List.not_mem_nil s))

/-- C8 counterexample: an events response holding two `deploy_ended`
events where the later-indexed one has the smaller timestamp.  The code's
reduce keeps the last event in array order, so `lastDeployed` is 3, while
the event with the greatest timestamp (the spec's "latest deploy event")
has timestamp 5. -/
theorem c8_counterexample_order_dependent :
    (fetchEventDetails realBase apiEv (JSVal.str "s1")).1 =
      .ok (JSVal.obj [("lastDeployed", JSVal.num 3)]) ∧
    specGreatestDeployTs evItems = some 5 ∧
    jsGet (JSVal.obj [("lastDeployed", JSVal.num 3)]) "lastDeployed" =
      .ok (JSVal.num 3) ∧
    ¬ ((3 : Int) = 5) :=
  ⟨rfl, rfl, rfl, by decide⟩

/-- C8 amended: each enrichment is built from the LAST `deploy_ended`
event in the events response's array order — not the one with the
greatest timestamp — with `lastDeployed` equal to that event's timestamp;
the result is therefore order-dependent rather than order-invariant. -/
theorem c8_amended_last_deploy_event (api : Api) (sid : JSVal) (st : Int) (d ts e : JSVal)
    (pre post : List JSVal)
    (hapi : api (getCall (eventsUrl realBase sid)) =
      .ok ⟨st, JSVal.arr (pre ++ e :: post)⟩)
    (hpre : ∀ item ∈ pre, eventReadable item)
    (he : eventDeployEnded e d ts)
    (hpost : ∀ item ∈ post, eventSkipped item) :
    (fetchEventDetails realBase api sid).1 =
      .ok (jsSpreadWith d "lastDeployed" ts) ∧
    jsGet (jsSpreadWith d "lastDeployed" ts) "lastDeployed" = .ok ts := by
  refine ⟨?_, jsGet_spread_last d "lastDeployed" ts⟩
  obtain ⟨acc1, hacc1⟩ := jsFoldM_readable pre hpre (JSVal.obj [])
  have hfold : jsFoldM deployFoldStep (JSVal.obj []) (pre ++ e :: post) =
      .ok (jsSpreadWith d "lastDeployed" ts) := by
    rw [jsFoldM_append_ok deployFoldStep pre (e :: post) (JSVal.obj []) acc1 hacc1]
    have hc : jsFoldM deployFoldStep acc1 (e :: post) =
        (deployFoldStep acc1 e >>= fun a => jsFoldM deployFoldStep a post) := rfl
    rw [hc, deployFoldStep_deploy acc1 e d ts he, exceptBind_ok]
    exact jsFoldM_skip post (jsSpreadWith d "lastDeployed" ts) hpost
  show eventDetailsResult (api (getCall (eventsUrl realBase sid))) = _
  rw [hapi]
  unfold eventDetailsResult
  exact hfold

/-- C8 amended witness: the `apiEv` scenario, whose last-in-order
`deploy_ended` event has timestamp 3. -/
theorem c8_amended_last_deploy_event_witness :
    (fetchEventDetails realBase apiEv (JSVal.str "s1")).1 =
      .ok (jsSpreadWith (JSVal.obj []) "lastDeployed" (JSVal.num 3)) ∧
    jsGet (jsSpreadWith (JSVal.obj []) "lastDeployed" (JSVal.num 3)) "lastDeployed" =
      .ok (JSVal.num 3) :=
  c8_amended_last_deploy_event apiEv (JSVal.str "s1") 200 (JSVal.obj [])
    (JSVal.num 3)
    (JSVal.obj [("event", JSVal.obj [("type", JSVal.str "deploy_ended"),
      ("details", JSVal.obj []), ("timestamp", JSVal.num 3)])])
    [JSVal.obj [("event", JSVal.obj [("type", JSVal.str "deploy_ended"),
      ("details", JSVal.obj []), ("timestamp", JSVal.num 5)])]]
    []
    rfl
    (by
      intro item hitem
      rw [List.mem_singleton.mp hitem]
      exact ⟨JSVal.obj [("type", JSVal.str "deploy_ended"), ("details", JSVal.obj []),
        ("timestamp", JSVal.num 5)], JSVal.str "deploy_ended", rfl, rfl⟩)
    ⟨JSVal.obj [("type", JSVal.str "deploy_ended"), ("details", JSVal.obj []),
      ("timestamp", JSVal.num 3)], rfl, rfl, rfl, rfl⟩
    (fun item hitem => absurd hitem (List.not_mem_nil item))

/-- C3 counterexample: in the claimed scenario (owner `o1`, empty database
list, one web service `s1`), neither variant issues exactly the claimed
seven-call sequence: the fan-out variant issues eight calls (it also
fetches `s1`'s events), and the interactive variant's PUT and deploy
address service id `undefined` rather than `s1` (their URLs differ at
position 5). -/
theorem c3_counterexample_call_sequence :
    ¬ ((rebuild_v1 apiFan).2 = claimedRebuildSeq) ∧
    ¬ ((rebuild_v0 cfgW apiFan).2 = claimedRebuildSeq) := by
  constructor
  · intro h
    have hlen := congrArg List.length h
    exact absurd hlen (by decide)
  · intro h
    have hurl := congrArg (fun l => (l[5]?).map ApiCall.url) h
    exact absurd hurl (by decide)

/-- C3 amended: in that scenario the fan-out variant issues exactly the
claimed sequence with one extra call — the events fetch for `s1` directly
after the service-list fetch (eight calls, PUT and deploy on `s1`, ending
`done`) — while the interactive variant issues the seven-call shape with
the PUT and deploy addressed to service id `undefined` instead of `s1`. -/
theorem c3_amended_call_sequence :
    rebuild_v1 apiFan = (.done, fanRebuildSeq) ∧
    rebuild_v0 cfgW apiFan = (.done, rawRebuildSeq) :=
  ⟨rfl, rfl⟩
